import Mathlib

/-!
# Healing Clicker — progression & economy engine, shallow embedding

A shallow embedding of the progression/economy core of the game:
`settings.py` (static tables), `player.py` (ledger), `character_manager.py`
(affection), `save_manager.py` (offline settlement), `event_manager.py`
(random-event state machine) and `achievement_manager.py` (one-shot
achievement unlocking).

Python `float` values are modelled as exact rationals (`ℚ`); `int` as
`ℕ`/`ℤ`.  Calls to `random.random()` / `random.uniform` / `random.choice`
are injected as explicit arguments, and the wall-clock subtraction plus
ISO-timestamp parse of `save_manager.py` is injected as an
`Option ℚ` elapsed-seconds value (`none` = parse failure).
-/

namespace HealingClicker

/-- One entry of the `UPGRADES` table in `settings.py` (the presentational
`name`/`description` strings are dropped). -/
structure UpgradeDef where
  base_cost : ℕ
  cost_multiplier : ℚ
  effect_per_level : ℕ
  max_level : Option ℕ
  deriving Repr, DecidableEq

/-- The `UPGRADES` table of `settings.py` (lines 36–73), keyed by upgrade id.
`cost_multiplier` literals `1.15`, `1.20`, `1.18` are the exact rationals
`23/20`, `6/5`, `59/50`. -/
def UPGRADES : List (String × UpgradeDef) :=
  [ ("click_power",  { base_cost := 10,   cost_multiplier := 23/20, effect_per_level := 1,  max_level := none }),
    ("auto_click",   { base_cost := 50,   cost_multiplier := 23/20, effect_per_level := 1,  max_level := none }),
    ("lucky_bonus",  { base_cost := 200,  cost_multiplier := 6/5,   effect_per_level := 5,  max_level := some 10 }),
    ("golden_touch", { base_cost := 500,  cost_multiplier := 59/50, effect_per_level := 5,  max_level := none }),
    ("fairy_army",   { base_cost := 2000, cost_multiplier := 23/20, effect_per_level := 10, max_level := none }) ]

/-- Dictionary lookup `UPGRADES[id]`, `none` when `id not in UPGRADES`. -/
def lookupUpgrade (id : String) : Option UpgradeDef :=
  (UPGRADES.find? (fun kv => kv.1 == id)).map Prod.snd

/-- Lookup `UPGRADES[id]["effect_per_level"]` (0 for an unknown id; the source only
reads it for known ids). -/
def effectOf (id : String) : ℕ :=
  ((lookupUpgrade id).map UpgradeDef.effect_per_level).getD 0

/-- Mutable per-player state of `player.py` (`Player.__init__`, lines 16–21).
`upgrade_levels` is the dict `{key: 0 for key in UPGRADES}`; it is modelled
as a total function on ids (only keys of `UPGRADES` are ever read). -/
structure Player where
  points : ℚ
  total_points_earned : ℚ
  total_clicks : ℕ
  upgrade_levels : String → ℕ

/-- The all-zero new-game state built by `Player.__init__`. -/
def Player.init : Player :=
  { points := 0, total_points_earned := 0, total_clicks := 0,
    upgrade_levels := fun _ => 0 }

/-- Function `Player.get_click_power` (player.py lines 23–30):
`1 + level(click_power)·effect + level(golden_touch)·effect`. -/
def Player.get_click_power (p : Player) : ℕ :=
  1 + p.upgrade_levels "click_power" * effectOf "click_power"
    + p.upgrade_levels "golden_touch" * effectOf "golden_touch"

/-- Function `Player.get_auto_rate` (player.py lines 32–39):
`level(auto_click)·effect + level(fairy_army)·effect`, points per second. -/
def Player.get_auto_rate (p : Player) : ℚ :=
  (p.upgrade_levels "auto_click" * effectOf "auto_click"
    + p.upgrade_levels "fairy_army" * effectOf "fairy_army" : ℕ)

/-- Function `Player.get_lucky_chance` (player.py lines 41–48): `0` at level 0, else
`0.10 + (level − 1)·(effect/100)`, finally `min (·) 0.5`. -/
def Player.get_lucky_chance (p : Player) : ℚ :=
  let level := p.upgrade_levels "lucky_bonus"
  let base_chance : ℚ :=
    if 0 < level then
      1/10 + ((level - 1 : ℕ) : ℚ) * ((effectOf "lucky_bonus" : ℚ) / 100)
    else 0
  min base_chance (1/2)

/-- The cost formula of `Player.get_upgrade_cost` (player.py lines 50–57)
with the current level made an explicit argument:
`int(base_cost * cost_multiplier ** level)`, `0` for an unknown id.
Python `int()` truncates toward zero; the value is nonnegative here, so
truncation coincides with `⌊·⌋`. -/
def costAt (id : String) (level : ℕ) : ℤ :=
  match lookupUpgrade id with
  | none => 0
  | some u => ⌊(u.base_cost : ℚ) * u.cost_multiplier ^ level⌋

/-- Function `Player.get_upgrade_cost` (player.py lines 50–57). -/
def Player.get_upgrade_cost (p : Player) (id : String) : ℤ :=
  costAt id (p.upgrade_levels id)

/-- Function `Player.can_afford_upgrade` (player.py lines 59–68): unknown id → `false`;
at `max_level` (when the table has one) → `false`; else `points ≥ cost`. -/
def Player.can_afford_upgrade (p : Player) (id : String) : Bool :=
  match lookupUpgrade id with
  | none => false
  | some u =>
      match u.max_level with
      | some m =>
          if p.upgrade_levels id ≥ m then false
          else decide (p.points ≥ (p.get_upgrade_cost id : ℚ))
      | none => decide (p.points ≥ (p.get_upgrade_cost id : ℚ))

/-- Function `Player.purchase_upgrade` (player.py lines 70–77).  Returns the updated
player together with the Python function's boolean result. -/
def Player.purchase_upgrade (p : Player) (id : String) : Player × Bool :=
  if p.can_afford_upgrade id then
    let cost := p.get_upgrade_cost id
    ({ p with
        points := p.points - (cost : ℚ),
        upgrade_levels := fun k => if k = id then p.upgrade_levels k + 1
                                   else p.upgrade_levels k },
      true)
  else (p, false)

/-- Function `Player.add_points` (player.py lines 79–82). -/
def Player.add_points (p : Player) (amount : ℚ) : Player :=
  { p with points := p.points + amount,
           total_points_earned := p.total_points_earned + amount }

/-- Function `Player.click` (player.py lines 84–94), with the `random.random()` draw
injected as `roll`.  Note the source takes NO multiplier argument and
returns a single `int` (no lucky flag), unlike its caller
`Game._on_character_click` (game.py line 308). -/
def Player.click (p : Player) (roll : ℚ) : Player × ℕ :=
  let base0 := p.get_click_power
  let base_points := if roll < p.get_lucky_chance then base0 * 2 else base0
  let p1 := p.add_points (base_points : ℚ)
  ({ p1 with total_clicks := p1.total_clicks + 1 }, base_points)

/-- Modelled from the spec: the `click(multiplier, lucky_roll)` operation the
spec (and the caller `Game._on_character_click`) describes, returning
`(points_awarded, was_lucky)` with `base = click_power() × multiplier`.
`player.py` does not implement this interface; this definition exists only
to compare the spec's claim with the source `Player.click`. -/
def clickSpec (p : Player) (multiplier : ℕ) (roll : ℚ) :
    Player × ℕ × Bool :=
  let base0 := p.get_click_power * multiplier
  let lucky := decide (roll < p.get_lucky_chance)
  let base := if lucky then base0 * 2 else base0
  let p1 := p.add_points (base : ℚ)
  ({ p1 with total_clicks := p1.total_clicks + 1 }, base, lucky)

/-! ## Character manager (`character_manager.py`) -/

/-- The four character ids of the `CHARACTERS` table in `settings.py`. -/
inductive CharId
  | hana | mizuki | kaede | yuki
  deriving Repr, DecidableEq

/-- All keys of `CHARACTERS`, in table order. -/
def allCharIds : List CharId := [.hana, .mizuki, .kaede, .yuki]

/-- Constant `AFFECTION["max"]` from `settings.py` (line 161). -/
def MAX_AFFECTION : ℚ := 100

/-- State of `CharacterManager` (`character_manager.py` lines 22–31; the
private idle/blink animation timers are presentational and dropped).
`affection` is the dict `{cid: 0.0 for cid in CHARACTERS}`, total over the
four character ids. -/
structure CharacterManager where
  current_id : CharId
  unlocked : List CharId
  affection : CharId → ℚ

/-- Constructor `CharacterManager.__init__`. -/
def CharacterManager.init : CharacterManager :=
  { current_id := .hana, unlocked := [.hana], affection := fun _ => 0 }

/-- Method `CharacterManager.add_affection` (character_manager.py lines 63–68) with
the target id explicit (the Python default `character_id or current_id` is
resolved by the caller).  The membership guard `cid in self.affection` is
always true since the dict holds every character id.  Note the source
clamps only from above: `min(AFFECTION["max"], old + amount)`. -/
def CharacterManager.add_affection (m : CharacterManager) (amount : ℚ)
    (cid : CharId) : CharacterManager :=
  { m with affection := fun c =>
      if c = cid then min MAX_AFFECTION (m.affection c + amount)
      else m.affection c }

/-- Method `CharacterManager.get_max_affection` (lines 87–89): maximum over the four
affection values (the dict is never empty). -/
def CharacterManager.get_max_affection (m : CharacterManager) : ℚ :=
  max (max (m.affection .hana) (m.affection .mizuki))
    (max (m.affection .kaede) (m.affection .yuki))

/-- Method `CharacterManager.all_affection_above` (lines 91–92). -/
def CharacterManager.all_affection_above (m : CharacterManager)
    (threshold : ℚ) : Bool :=
  allCharIds.all fun c => decide (m.affection c ≥ threshold)

/-! ## Offline settlement (`save_manager.py`) -/

/-- Method `SaveManager.calculate_offline_earnings` (save_manager.py lines 63–82).
The `datetime.fromisoformat` parse and the wall-clock subtraction
`(now - last_played).total_seconds()` are injected as `parsed : Option ℚ`:
`none` models a parse failure (the `except` branch returning `0.0`),
`some elapsed` the computed elapsed seconds. -/
def calculate_offline_earnings (p : Player) (parsed : Option ℚ) : ℚ :=
  match parsed with
  | none => 0
  | some elapsed =>
      let max_offline_seconds : ℚ := 24 * 60 * 60
      let offline_seconds := min elapsed max_offline_seconds
      let efficiency : ℚ := 1/2
      p.get_auto_rate * offline_seconds * efficiency

/-- The offline grant performed at load by `Game._load_game` (game.py lines
195–201): earnings are added via `add_points` only when strictly
positive. -/
def applyOfflineGrant (p : Player) (parsed : Option ℚ) : Player :=
  let earnings := calculate_offline_earnings p parsed
  if earnings > 0 then p.add_points earnings else p

/-! ## Random-event state machine (`event_manager.py`) -/

/-- One event template of `EVENT_TEMPLATES` (event_manager.py lines 51–80);
the presentational `name`/`description` strings are dropped. -/
structure EventTemplate where
  event_type : String
  duration : ℚ
  required : ℕ
  deriving Repr, DecidableEq

/-- Table `EVENT_TEMPLATES` (event_manager.py lines 51–80). -/
def EVENT_TEMPLATES : List EventTemplate :=
  [ { event_type := "gold_rush",       duration := 10, required := 0 },
    { event_type := "shooting_star",   duration := 15, required := 3 },
    { event_type := "flower_field",    duration := 20, required := 5 },
    { event_type := "rainbow_visitor", duration := 10, required := 1 } ]

/-- A live `RandomEvent` (event_manager.py lines 18–38); the target list is
abstracted to the `collected` count it feeds (`success`/`collected`/
`required` are the fields `update`/`_finish_event` read). -/
structure RandomEvent where
  event_type : String
  duration : ℚ
  elapsed : ℚ
  success : Bool
  collected : ℕ
  required : ℕ
  deriving Repr, DecidableEq

/-- Constructor `RandomEvent.__init__` plus the `ev.required = template["required"]`
assignment of `EventManager._start_event`. -/
def RandomEvent.ofTemplate (t : EventTemplate) : RandomEvent :=
  { event_type := t.event_type, duration := t.duration, elapsed := 0,
    success := false, collected := 0, required := t.required }

/-- The result dict returned by `EventManager._finish_event`. -/
structure EventResult where
  event_type : String
  success : Bool
  deriving Repr, DecidableEq

/-- State of `EventManager` (event_manager.py lines 86–92). -/
structure EventManager where
  current_event : Option RandomEvent
  timer : ℚ
  next_interval : ℚ
  total_completed : ℕ
  showing_alert : Bool
  alert_timer : ℚ
  deriving Repr, DecidableEq

/-- Method `EventManager._finish_event` (event_manager.py lines 149–163), with the
fresh `random.uniform` draw of `_random_interval` injected as `fresh`.
Mirrors the `if gold_rush / elif collected ≥ required` chain setting
`ev.success` before reading it. -/
def EventManager.finish_event (m : EventManager) (ev : RandomEvent)
    (fresh : ℚ) : EventManager × EventResult :=
  let success :=
    if ev.event_type = "gold_rush" then true
    else if ev.collected ≥ ev.required then true
    else ev.success
  ({ m with
      current_event := none,
      total_completed := if success then m.total_completed + 1
                         else m.total_completed,
      next_interval := fresh,
      timer := 0 },
    { event_type := ev.event_type, success := success })

/-- Method `EventManager._start_event` (event_manager.py lines 132–147) with the
`random.choice(EVENT_TEMPLATES)` draw injected (target positions are
presentational and dropped with the target list). -/
def EventManager.start_event (m : EventManager) (tmpl : EventTemplate) :
    EventManager :=
  { m with current_event := some (RandomEvent.ofTemplate tmpl) }

/-- Method `EventManager.update` (event_manager.py lines 102–130), with the two
random draws injected: `fresh` for the next-interval draw used on event
resolution, `tmpl` for the template choice used when an alert times out.
The source's second `gold_rush and elapsed >= duration` check (lines
111–113) is dead code — the first check already returned — and is kept as
the unreachable inner branch. -/
def EventManager.update (m : EventManager) (dt : ℚ) (fresh : ℚ)
    (tmpl : EventTemplate) : EventManager × Option EventResult :=
  match m.current_event with
  | some ev =>
      let ev' := { ev with elapsed := ev.elapsed + dt }
      let m' := { m with current_event := some ev' }
      if ev'.elapsed ≥ ev'.duration then
        let r := m'.finish_event ev' fresh
        (r.1, some r.2)
      else if ev'.event_type = "gold_rush" ∧ ev'.elapsed ≥ ev'.duration then
        let r := m'.finish_event { ev' with success := true } fresh
        (r.1, some r.2)
      else (m', none)
  | none =>
      if m.showing_alert then
        let m' := { m with alert_timer := m.alert_timer + dt }
        if m'.alert_timer > 5 then
          (({ m' with showing_alert := false }).start_event tmpl, none)
        else (m', none)
      else
        let m' := { m with timer := m.timer + dt }
        if m'.timer ≥ m'.next_interval then
          ({ m' with timer := 0, showing_alert := true, alert_timer := 0 },
            none)
        else (m', none)

/-- Method `EventManager.handle_click` (event_manager.py lines 168–186), abstracted
over the hit test: `hit = true` models a click whose position lands within
radius of some live target (in which case that target dies and `collected`
is incremented, with `success` set once `collected ≥ required`). -/
def EventManager.handle_click (m : EventManager) (hit : Bool) :
    EventManager × Bool :=
  match m.current_event with
  | none => (m, false)
  | some ev =>
      if ev.event_type = "gold_rush" then (m, false)
      else if hit then
        let collected' := ev.collected + 1
        let ev' := { ev with
          collected := collected',
          success := if collected' ≥ ev.required then true else ev.success }
        ({ m with current_event := some ev' }, true)
      else (m, false)

/-! ## Achievement engine (`achievement_manager.py`) -/

/-- A `condition` record of the `ACHIEVEMENTS` table in `settings.py`. -/
structure AchCondition where
  ctype : String
  value : ℚ
  deriving Repr, DecidableEq

/-- One achievement: id, condition, reward (the presentational `name` is
dropped). -/
structure AchievementDef where
  id : String
  condition : AchCondition
  reward : ℕ
  deriving Repr, DecidableEq

/-- The `ACHIEVEMENTS` table of `settings.py` (lines 178–197), in dict
insertion order. -/
def ACHIEVEMENTS : List AchievementDef :=
  [ { id := "click_10",       condition := { ctype := "total_clicks",    value := 10 },      reward := 100 },
    { id := "click_100",      condition := { ctype := "total_clicks",    value := 100 },     reward := 500 },
    { id := "click_1000",     condition := { ctype := "total_clicks",    value := 1000 },    reward := 5000 },
    { id := "click_10000",    condition := { ctype := "total_clicks",    value := 10000 },   reward := 50000 },
    { id := "points_1000",    condition := { ctype := "total_points",    value := 1000 },    reward := 200 },
    { id := "points_10000",   condition := { ctype := "total_points",    value := 10000 },   reward := 2000 },
    { id := "points_100000",  condition := { ctype := "total_points",    value := 100000 },  reward := 20000 },
    { id := "points_1000000", condition := { ctype := "total_points",    value := 1000000 }, reward := 200000 },
    { id := "upgrade_first",  condition := { ctype := "total_upgrades",  value := 1 },       reward := 50 },
    { id := "upgrade_10",     condition := { ctype := "total_upgrades",  value := 10 },      reward := 1000 },
    { id := "upgrade_all",    condition := { ctype := "all_upgrades_lv", value := 5 },       reward := 10000 },
    { id := "affection_20",   condition := { ctype := "max_affection",   value := 20 },      reward := 500 },
    { id := "affection_50",   condition := { ctype := "max_affection",   value := 50 },      reward := 5000 },
    { id := "affection_100",  condition := { ctype := "max_affection",   value := 100 },     reward := 50000 },
    { id := "affection_all",  condition := { ctype := "all_affection",   value := 50 },      reward := 100000 },
    { id := "lucky_hit",      condition := { ctype := "first_lucky",     value := 1 },       reward := 300 },
    { id := "offline_return", condition := { ctype := "first_offline",   value := 1 },       reward := 200 },
    { id := "event_first",    condition := { ctype := "first_event",     value := 1 },       reward := 500 } ]

/-- State of `AchievementManager` (achievement_manager.py lines 19–25; the
presentational `notified` list is dropped). -/
structure AchievementManager where
  unlocked : List String
  first_lucky : Bool
  first_offline : Bool
  first_event : Bool

/-- Constructor `AchievementManager.__init__`. -/
def AchievementManager.init : AchievementManager :=
  { unlocked := [], first_lucky := false, first_offline := false,
    first_event := false }

/-- Expression `sum(player.upgrade_levels.values())` over the five dict keys. -/
def Player.totalUpgrades (p : Player) : ℕ :=
  (UPGRADES.map fun kv => p.upgrade_levels kv.1).sum

/-- Method `AchievementManager._evaluate` (achievement_manager.py lines 40–67). -/
def AchievementManager.evaluate (am : AchievementManager)
    (cond : AchCondition) (p : Player) (cm : CharacterManager) : Bool :=
  if cond.ctype = "total_clicks" then decide ((p.total_clicks : ℚ) ≥ cond.value)
  else if cond.ctype = "total_points" then decide (p.total_points_earned ≥ cond.value)
  else if cond.ctype = "total_upgrades" then decide ((p.totalUpgrades : ℚ) ≥ cond.value)
  else if cond.ctype = "all_upgrades_lv" then
    UPGRADES.all fun kv => decide ((p.upgrade_levels kv.1 : ℚ) ≥ cond.value)
  else if cond.ctype = "max_affection" then decide (cm.get_max_affection ≥ cond.value)
  else if cond.ctype = "all_affection" then cm.all_affection_above cond.value
  else if cond.ctype = "first_lucky" then am.first_lucky
  else if cond.ctype = "first_offline" then am.first_offline
  else if cond.ctype = "first_event" then am.first_event
  else false

/-- The loop body of `AchievementManager.check_all` folded over a list of
achievement definitions, carrying the manager and the `newly` batch. -/
def checkLoop (p : Player) (cm : CharacterManager) :
    List AchievementDef → AchievementManager × List String →
    AchievementManager × List String
  | [], acc => acc
  | a :: rest, (am, newly) =>
      if a.id ∈ am.unlocked then checkLoop p cm rest (am, newly)
      else if am.evaluate a.condition p cm then
        checkLoop p cm rest
          ({ am with unlocked := am.unlocked ++ [a.id] }, newly ++ [a.id])
      else checkLoop p cm rest (am, newly)

/-- Method `AchievementManager.check_all` (achievement_manager.py lines 27–38):
returns the updated manager and the list of newly unlocked ids (the source
returns the full info dicts; only the ids matter here). -/
def AchievementManager.check_all (am : AchievementManager) (p : Player)
    (cm : CharacterManager) : AchievementManager × List String :=
  checkLoop p cm ACHIEVEMENTS (am, [])

/-- A sequence of `check_all` evaluations against successive observed
player/character states, collecting each call's newly-unlocked batch. -/
def runChecks (am : AchievementManager) :
    List (Player × CharacterManager) →
    AchievementManager × List (List String)
  | [] => (am, [])
  | (p, cm) :: rest =>
      let r := am.check_all p cm
      let r' := runChecks r.1 rest
      (r'.1, r.2 :: r'.2)

/-! ## Ledger operation sequences (for the player-ledger invariant) -/

/-- One ledger-mutating operation of the progression core, with every random
or external input injected: a character click (`Player.click` with its
roll), a raw `add_points` grant (auto accrual, event or achievement
reward), an upgrade purchase, and the offline grant performed at load. -/
inductive LedgerOp
  | click (roll : ℚ)
  | addPoints (amount : ℚ)
  | purchase (id : String)
  | offlineGrant (parsed : Option ℚ)

/-- Apply one ledger operation to a player state. -/
def applyOp (p : Player) : LedgerOp → Player
  | .click roll => (p.click roll).1
  | .addPoints amount => p.add_points amount
  | .purchase id => (p.purchase_upgrade id).1
  | .offlineGrant parsed => applyOfflineGrant p parsed

/-- Side condition the game guarantees for an operation: every `add_points`
grant in `game.py` is a nonnegative amount (auto accrual with
`auto_rate ≥ 0`, integer event/achievement rewards, an offline grant
already guarded by `> 0`). -/
def LedgerOp.wf : LedgerOp → Prop
  | .addPoints amount => 0 ≤ amount
  | _ => True

/-- Apply a sequence of ledger operations. -/
def applyOps (p : Player) (ops : List LedgerOp) : Player :=
  ops.foldl applyOp p

/-- The player-ledger invariant: spendable points are nonnegative and never
exceed the lifetime total. -/
def LedgerInv (p : Player) : Prop :=
  0 ≤ p.points ∧ p.points ≤ p.total_points_earned

/-! ## Helper lemmas -/

/-- A successful `UPGRADES` lookup yields one of the five table entries. -/
lemma lookupUpgrade_cases {id : String} {u : UpgradeDef}
    (h : lookupUpgrade id = some u) : ∃ kv ∈ UPGRADES, kv.2 = u := by
  unfold lookupUpgrade at h
  cases hf : UPGRADES.find? (fun kv => kv.1 == id) with
  | none => simp [hf] at h
  | some kv =>
      rw [hf] at h
      simp at h
      exact ⟨kv, List.mem_of_find?_eq_some hf, h⟩

/-- Every cost multiplier in the table is at least `1`. -/
lemma lookupUpgrade_mult_pos {id : String} {u : UpgradeDef}
    (h : lookupUpgrade id = some u) : 1 ≤ u.cost_multiplier := by
  obtain ⟨kv, hkv, rfl⟩ := lookupUpgrade_cases h
  simp only [UPGRADES, List.mem_cons, List.not_mem_nil, or_false] at hkv
  rcases hkv with rfl | rfl | rfl | rfl | rfl <;> norm_num

/-- Upgrade costs are never negative. -/
lemma costAt_nonneg (id : String) (level : ℕ) : 0 ≤ costAt id level := by
  unfold costAt
  cases h : lookupUpgrade id with
  | none => exact le_refl 0
  | some u =>
      have hm : (0 : ℚ) ≤ u.cost_multiplier :=
        le_trans zero_le_one (lookupUpgrade_mult_pos h)
      exact Int.floor_nonneg.mpr (by positivity)

/-- A `true` result of `can_afford_upgrade` certifies `cost ≤ points`. -/
lemma can_afford_le {p : Player} {id : String}
    (h : p.can_afford_upgrade id = true) :
    ((p.get_upgrade_cost id : ℤ) : ℚ) ≤ p.points := by
  unfold Player.can_afford_upgrade at h
  split at h
  · exact absurd h (by simp)
  · split at h
    · split at h
      · exact absurd h (by simp)
      · exact of_decide_eq_true h
    · exact of_decide_eq_true h

/-- Strict growth of `⌊b·mᴸ⌋` in `L` once each marginal step exceeds one
whole unit (`b·(m−1) > 1`, `m > 1`). -/
lemma floor_mul_pow_strict {b m : ℚ} (hm : 1 < m) (hb : 1 < b * (m - 1))
    (L : ℕ) : ⌊b * m ^ L⌋ < ⌊b * m ^ (L + 1)⌋ := by
  have hbm : (0 : ℚ) < b * (m - 1) := lt_trans one_pos hb
  have hpow : (1 : ℚ) ≤ m ^ L := one_le_pow₀ hm.le
  have h1 : b * (m - 1) * 1 ≤ b * (m - 1) * m ^ L :=
    mul_le_mul_of_nonneg_left hpow hbm.le
  have key : b * m ^ L + 1 ≤ b * m ^ (L + 1) := by
    have hsplit : b * m ^ (L + 1) = b * m ^ L + b * (m - 1) * m ^ L := by
      ring
    rw [hsplit]; nlinarith
  calc ⌊b * m ^ L⌋ < ⌊b * m ^ L⌋ + 1 := lt_add_one _
    _ = ⌊b * m ^ L + 1⌋ := by rw [Int.floor_add_one]
    _ ≤ ⌊b * m ^ (L + 1)⌋ := Int.floor_le_floor key

/-! ## C3: strict monotonicity of the upgrade cost curve -/

/-- C3.  For every upgrade id defined in the static `UPGRADES` table and
every level `L ≥ 0`, the cost `⌊base_cost · cost_multiplierᴸ⌋` computed by
`Player.get_upgrade_cost` is strictly increasing in the level. -/
theorem upgrade_cost_strict_mono (id : String) (L : ℕ)
    (h : (lookupUpgrade id).isSome) : costAt id L < costAt id (L + 1) := by
  cases hl : lookupUpgrade id with
  | none => rw [hl] at h; simp at h
  | some u =>
      obtain ⟨kv, hkv, hu⟩ := lookupUpgrade_cases hl
      have hcost : ∀ lvl, costAt id lvl =
          ⌊(u.base_cost : ℚ) * u.cost_multiplier ^ lvl⌋ := by
        intro lvl; unfold costAt; rw [hl]
      rw [hcost L, hcost (L + 1)]
      subst hu
      simp only [UPGRADES, List.mem_cons, List.not_mem_nil, or_false] at hkv
      rcases hkv with rfl | rfl | rfl | rfl | rfl <;>
        exact floor_mul_pow_strict (by norm_num) (by norm_num) L

/-- Witness for C3 at `click_power`, level 0: cost rises from 10 to 11. -/
theorem upgrade_cost_strict_mono_witness :
    (lookupUpgrade "click_power").isSome = true ∧
    costAt "click_power" 0 < costAt "click_power" 1 :=
  ⟨rfl, upgrade_cost_strict_mono "click_power" 0 (by rfl)⟩

/-! ## C10: unknown upgrade ids degrade to safe no-ops -/

/-- C10.  For an upgrade id absent from the static table, the ledger
operations are safe no-ops: `get_upgrade_cost` returns 0,
`can_afford_upgrade` returns false, and `purchase_upgrade` returns false
leaving the player unchanged. -/
theorem unknown_upgrade_noop (p : Player) (id : String)
    (h : lookupUpgrade id = none) :
    p.get_upgrade_cost id = 0 ∧
    p.can_afford_upgrade id = false ∧
    p.purchase_upgrade id = (p, false) := by
  have hcost : p.get_upgrade_cost id = 0 := by
    unfold Player.get_upgrade_cost costAt; rw [h]
  have haff : p.can_afford_upgrade id = false := by
    unfold Player.can_afford_upgrade; rw [h]
  refine ⟨hcost, haff, ?_⟩
  unfold Player.purchase_upgrade
  rw [haff]
  simp

/-- Witness for C10 at the undefined id `"petting_power"` on a fresh
player. -/
theorem unknown_upgrade_noop_witness :
    lookupUpgrade "petting_power" = none ∧
    (Player.init.get_upgrade_cost "petting_power" = 0 ∧
      Player.init.can_afford_upgrade "petting_power" = false ∧
      Player.init.purchase_upgrade "petting_power" = (Player.init, false)) :=
  ⟨rfl, unknown_upgrade_noop Player.init "petting_power" rfl⟩

/-! ## C2: purchase re-validates, deducts exactly, or is a total no-op -/

/-- C2.  For a known upgrade id, `purchase_upgrade` re-validates
affordability; on success it deducts exactly the integer-truncated cost,
increments only that upgrade's level by one, leaves the lifetime totals
and click counter alone, and the remaining points are nonnegative; on
failure the player is returned unchanged and an immediately repeated call
is again a no-op. -/
theorem purchase_upgrade_spec (p : Player) (id : String)
    (_hk : (lookupUpgrade id).isSome) :
    (p.purchase_upgrade id).2 = p.can_afford_upgrade id ∧
    (p.can_afford_upgrade id = true →
      (p.purchase_upgrade id).1.points
          = p.points - ((p.get_upgrade_cost id : ℤ) : ℚ) ∧
      0 ≤ (p.purchase_upgrade id).1.points ∧
      (p.purchase_upgrade id).1.upgrade_levels id = p.upgrade_levels id + 1 ∧
      (∀ k, k ≠ id →
        (p.purchase_upgrade id).1.upgrade_levels k = p.upgrade_levels k) ∧
      (p.purchase_upgrade id).1.total_points_earned = p.total_points_earned ∧
      (p.purchase_upgrade id).1.total_clicks = p.total_clicks) ∧
    (p.can_afford_upgrade id = false →
      p.purchase_upgrade id = (p, false) ∧
      (p.purchase_upgrade id).1.purchase_upgrade id = (p, false)) := by
  refine ⟨?_, ?_, ?_⟩
  · unfold Player.purchase_upgrade
    by_cases h : p.can_afford_upgrade id <;> simp [h]
  · intro h
    have hle := can_afford_le h
    have hres : p.purchase_upgrade id =
        ({ p with points := p.points - ((p.get_upgrade_cost id : ℤ) : ℚ),
                  upgrade_levels := fun k => if k = id then p.upgrade_levels k + 1
                                             else p.upgrade_levels k }, true) := by
      unfold Player.purchase_upgrade
      rw [h]
      rfl
    rw [hres]
    refine ⟨rfl, ?_, ?_, ?_, rfl, rfl⟩
    · show (0 : ℚ) ≤ p.points - ((p.get_upgrade_cost id : ℤ) : ℚ)
      linarith
    · show (if id = id then p.upgrade_levels id + 1 else p.upgrade_levels id)
          = p.upgrade_levels id + 1
      simp
    · intro k hk'
      show (if k = id then p.upgrade_levels k + 1 else p.upgrade_levels k)
          = p.upgrade_levels k
      simp [hk']
  · intro h
    have hfail : p.purchase_upgrade id = (p, false) := by
      unfold Player.purchase_upgrade
      rw [h]
      simp
    exact ⟨hfail, by rw [hfail]; exact hfail⟩

/-- A player with exactly 10 points, enough for the first `click_power`
level (cost 10). -/
def p10 : Player := { Player.init with points := 10 }

/-- Witness for C2: with 10 points, buying `click_power` (cost 10) succeeds,
zeroes the points and raises the level to 1. -/
theorem purchase_upgrade_spec_witness :
    ((lookupUpgrade "click_power").isSome = true ∧
      p10.can_afford_upgrade "click_power" = true) ∧
    (p10.purchase_upgrade "click_power").1.points = 10 - 10 ∧
    (p10.purchase_upgrade "click_power").1.upgrade_levels "click_power" = 1 := by
  have haff : p10.can_afford_upgrade "click_power" = true := by
    norm_num [Player.can_afford_upgrade, Player.get_upgrade_cost, costAt,
      lookupUpgrade, UPGRADES, List.find?, p10, Player.init]
  have hcost : p10.get_upgrade_cost "click_power" = 10 := by
    norm_num [Player.get_upgrade_cost, costAt, lookupUpgrade, UPGRADES,
      List.find?, p10, Player.init]
  have happ := (purchase_upgrade_spec p10 "click_power" (by rfl)).2.1 haff
  refine ⟨⟨rfl, haff⟩, ?_, ?_⟩
  · rw [happ.1, hcost]
    norm_num [p10]
  · have := happ.2.2.1
    rw [this]
    norm_num [p10, Player.init]

/-! ## C5: lucky chance values, monotonicity and cap -/

/-- C5.  `get_lucky_chance` is exactly `0` at `lucky_bonus` level 0, exactly
`0.10` at level 1, never exceeds `0.5`, and is monotonically non-decreasing
in the level. -/
theorem lucky_chance_spec (p : Player) :
    (p.upgrade_levels "lucky_bonus" = 0 → p.get_lucky_chance = 0) ∧
    (p.upgrade_levels "lucky_bonus" = 1 → p.get_lucky_chance = 1/10) ∧
    p.get_lucky_chance ≤ 1/2 ∧
    (∀ q : Player,
      p.upgrade_levels "lucky_bonus" ≤ q.upgrade_levels "lucky_bonus" →
      p.get_lucky_chance ≤ q.get_lucky_chance) := by
  have heff : effectOf "lucky_bonus" = 5 := rfl
  refine ⟨?_, ?_, ?_, ?_⟩
  · intro h
    simp [Player.get_lucky_chance, h]
  · intro h
    norm_num [Player.get_lucky_chance, h, heff]
  · exact min_le_right _ _
  · intro q hq
    unfold Player.get_lucky_chance
    rw [heff]
    dsimp only
    by_cases hp : 0 < p.upgrade_levels "lucky_bonus"
    · have hq0 : 0 < q.upgrade_levels "lucky_bonus" := lt_of_lt_of_le hp hq
      rw [if_pos hp, if_pos hq0]
      refine min_le_min ?_ le_rfl
      have hsub : p.upgrade_levels "lucky_bonus" - 1
          ≤ q.upgrade_levels "lucky_bonus" - 1 := Nat.sub_le_sub_right hq 1
      have hcast : ((p.upgrade_levels "lucky_bonus" - 1 : ℕ) : ℚ)
          ≤ ((q.upgrade_levels "lucky_bonus" - 1 : ℕ) : ℚ) := by
        exact_mod_cast hsub
      have h5 : (0 : ℚ) ≤ ((5 : ℕ) : ℚ) / 100 := by norm_num
      nlinarith
    · rw [if_neg hp]
      have hmin0 : min (0 : ℚ) (1/2) = 0 := by norm_num
      rw [hmin0]
      refine le_min ?_ (by norm_num)
      split
      · positivity
      · exact le_refl 0

/-- A player whose `lucky_bonus` level is exactly `n`. -/
def luckyPlayer (n : ℕ) : Player :=
  { Player.init with upgrade_levels := fun k => if k = "lucky_bonus" then n else 0 }

/-- Witness for C5: levels 0 and 1 give chances 0 and 0.10, and the level-3
chance dominates the level-1 chance. -/
theorem lucky_chance_spec_witness :
    ((luckyPlayer 0).upgrade_levels "lucky_bonus" = 0 ∧
      (luckyPlayer 0).get_lucky_chance = 0) ∧
    ((luckyPlayer 1).upgrade_levels "lucky_bonus" = 1 ∧
      (luckyPlayer 1).get_lucky_chance = 1/10) ∧
    ((luckyPlayer 1).upgrade_levels "lucky_bonus"
        ≤ (luckyPlayer 3).upgrade_levels "lucky_bonus" ∧
      (luckyPlayer 1).get_lucky_chance ≤ (luckyPlayer 3).get_lucky_chance) := by
  have h0 : (luckyPlayer 0).upgrade_levels "lucky_bonus" = 0 := by
    simp [luckyPlayer]
  have h1 : (luckyPlayer 1).upgrade_levels "lucky_bonus" = 1 := by
    simp [luckyPlayer]
  have h13 : (luckyPlayer 1).upgrade_levels "lucky_bonus"
      ≤ (luckyPlayer 3).upgrade_levels "lucky_bonus" := by
    simp [luckyPlayer]
  exact ⟨⟨h0, (lucky_chance_spec (luckyPlayer 0)).1 h0⟩,
    ⟨h1, (lucky_chance_spec (luckyPlayer 1)).2.1 h1⟩,
    ⟨h13, (lucky_chance_spec (luckyPlayer 1)).2.2.2 (luckyPlayer 3) h13⟩⟩

/-! ## C6: affection clamping -/

/-- C6 counterexample.  `add_affection` clamps only from above
(`min(AFFECTION["max"], old + amount)`): on a fresh manager, adding `−5`
to `hana` stores `−5`, outside `[0, MAX_AFFECTION]`. -/
theorem add_affection_negative_counterexample :
    ¬ (0 ≤ (CharacterManager.init.add_affection (-5) CharId.hana).affection
          CharId.hana ∧
        (CharacterManager.init.add_affection (-5) CharId.hana).affection
          CharId.hana ≤ MAX_AFFECTION) := by
  intro h
  have hval : (CharacterManager.init.add_affection (-5) CharId.hana).affection
      CharId.hana = -5 := by
    norm_num [CharacterManager.add_affection, CharacterManager.init,
      MAX_AFFECTION]
  rw [hval] at h
  norm_num at h

/-- C6 amended.  The stored value of the targeted character never exceeds
`MAX_AFFECTION` (for any amount), and lies in `[0, MAX_AFFECTION]` whenever
the amount is non-negative and the prior value was non-negative; there is
no clamping at `0`, so a negative amount can drive the value below `0`. -/
theorem add_affection_upper_clamp (m : CharacterManager) (amount : ℚ)
    (cid : CharId) :
    (m.add_affection amount cid).affection cid ≤ MAX_AFFECTION ∧
    (0 ≤ amount → 0 ≤ m.affection cid →
      0 ≤ (m.add_affection amount cid).affection cid ∧
      (m.add_affection amount cid).affection cid ≤ MAX_AFFECTION) := by
  have hval : (m.add_affection amount cid).affection cid
      = min MAX_AFFECTION (m.affection cid + amount) := by
    simp [CharacterManager.add_affection]
  constructor
  · rw [hval]; exact min_le_left _ _
  · intro ha hprev
    rw [hval]
    refine ⟨le_min ?_ (by linarith), min_le_left _ _⟩
    norm_num [MAX_AFFECTION]

/-- Witness for C6's amended theorem: adding 3 affection to `hana` on a
fresh manager stays within `[0, MAX_AFFECTION]`. -/
theorem add_affection_upper_clamp_witness :
    (0 : ℚ) ≤ 3 ∧ 0 ≤ CharacterManager.init.affection CharId.hana ∧
    (0 ≤ (CharacterManager.init.add_affection 3 CharId.hana).affection
        CharId.hana ∧
      (CharacterManager.init.add_affection 3 CharId.hana).affection
        CharId.hana ≤ MAX_AFFECTION) := by
  have h3 : (0 : ℚ) ≤ 3 := by norm_num
  have hprev : (0 : ℚ) ≤ CharacterManager.init.affection CharId.hana := by
    norm_num [CharacterManager.init]
  exact ⟨h3, hprev,
    (add_affection_upper_clamp CharacterManager.init 3 CharId.hana).2 h3 hprev⟩

/-! ## C7: offline earnings formula, cap and parse failure -/

/-- A player whose `auto_click` level is 2, so `get_auto_rate = 2.0`
points per second. -/
def autoPlayer2 : Player :=
  { Player.init with
      upgrade_levels := fun k => if k = "auto_click" then 2 else 0 }

/-- C7.  `calculate_offline_earnings` returns
`auto_rate × elapsed × 0.5` with the elapsed seconds clamped to at most
24 hours (86400 s), and `0` when the timestamp fails to parse; with
`auto_rate = 2.0`, a 10-hour gap (36000 s) yields 36000 points and a
30-hour gap (108000 s) yields the capped 86400 points. -/
theorem offline_earnings_spec (p : Player) (e : ℚ) :
    calculate_offline_earnings p none = 0 ∧
    (e ≤ 86400 →
      calculate_offline_earnings p (some e) = p.get_auto_rate * e * (1/2)) ∧
    (86400 ≤ e →
      calculate_offline_earnings p (some e)
        = p.get_auto_rate * 86400 * (1/2)) ∧
    autoPlayer2.get_auto_rate = 2 ∧
    calculate_offline_earnings autoPlayer2 (some 36000) = 36000 ∧
    calculate_offline_earnings autoPlayer2 (some 108000) = 86400 := by
  have hval : ∀ (q : Player) (x : ℚ), calculate_offline_earnings q (some x)
      = q.get_auto_rate * min x (24 * 60 * 60) * (1/2) := fun _ _ => rfl
  have hrateN : (autoPlayer2.upgrade_levels "auto_click" * effectOf "auto_click"
      + autoPlayer2.upgrade_levels "fairy_army" * effectOf "fairy_army" : ℕ)
      = 2 := rfl
  have hrate : autoPlayer2.get_auto_rate = 2 := by
    unfold Player.get_auto_rate
    rw [hrateN]
    norm_num
  refine ⟨rfl, ?_, ?_, hrate, ?_, ?_⟩
  · intro he
    rw [hval, min_eq_left (by linarith : e ≤ (24 : ℚ) * 60 * 60)]
  · intro he
    rw [hval, min_eq_right (by linarith : (24 : ℚ) * 60 * 60 ≤ e)]
    norm_num
  · rw [hval, hrate, min_eq_left (by norm_num)]
    norm_num
  · rw [hval, hrate, min_eq_right (by norm_num)]
    norm_num

/-- Witness for C7: at a 10-hour gap the uncapped branch applies, at a
30-hour gap the capped branch applies. -/
theorem offline_earnings_spec_witness :
    ((36000 : ℚ) ≤ 86400 ∧
      calculate_offline_earnings autoPlayer2 (some 36000)
        = autoPlayer2.get_auto_rate * 36000 * (1/2)) ∧
    ((86400 : ℚ) ≤ 108000 ∧
      calculate_offline_earnings autoPlayer2 (some 108000)
        = autoPlayer2.get_auto_rate * 86400 * (1/2)) :=
  ⟨⟨by norm_num,
      (offline_earnings_spec autoPlayer2 36000).2.1 (by norm_num)⟩,
    ⟨by norm_num,
      (offline_earnings_spec autoPlayer2 108000).2.2.1 (by norm_num)⟩⟩

/-! ## C1: the click operation versus its specified interface

`player.py`'s `Player.click(self)` takes no multiplier argument and returns
a single `int`, while its only caller, `Game._on_character_click`
(game.py line 308), executes `points, lucky = self.player.click(multiplier)`
— exactly the `click(multiplier, lucky_roll) → (points_awarded, was_lucky)`
interface the spec describes.  The call as written raises a `TypeError`
(wrong arity), and the implemented award never includes the event
multiplier.  The theorem exhibits the divergence at a concrete input:
during a `gold_rush` (multiplier 5) on a fresh player with roll `0.5`, the
specified operation awards `click_power() × 5 = 5` while the implemented
`Player.click` awards `1`. -/

/-- C1.  At multiplier 5 (gold_rush) on a fresh player with roll `0.5`, the
implemented `Player.click` awards 1 point — it cannot see the multiplier —
whereas the specified `click(multiplier, lucky_roll)` awards 5; the two
awards differ. -/
theorem click_code_vs_spec :
    (Player.init.click (1/2)).2 = 1 ∧
    (clickSpec Player.init 5 (1/2)).2.1 = 5 ∧
    (Player.init.click (1/2)).2 ≠ (clickSpec Player.init 5 (1/2)).2.1 := by
  have hchance : Player.init.get_lucky_chance = 0 := by
    norm_num [Player.get_lucky_chance, Player.init]
  have hroll : ¬ ((1 : ℚ)/2 < Player.init.get_lucky_chance) := by
    rw [hchance]; norm_num
  have hpow : Player.init.get_click_power = 1 := rfl
  have h1 : (Player.init.click (1/2)).2 = 1 := by
    unfold Player.click
    dsimp only
    rw [if_neg hroll, hpow]
  have h2 : (clickSpec Player.init 5 (1/2)).2.1 = 5 := by
    unfold clickSpec
    dsimp only
    rw [decide_eq_false hroll]
    simp [hpow]
  exact ⟨h1, h2, by rw [h1, h2]; norm_num⟩

/-! ## C4: the player-ledger invariant -/

/-- On success, `purchase_upgrade` deducts the cost and bumps the level. -/
lemma purchase_success_eq {p : Player} {id : String}
    (h : p.can_afford_upgrade id = true) :
    p.purchase_upgrade id =
      ({ p with
          points := p.points - ((p.get_upgrade_cost id : ℤ) : ℚ),
          upgrade_levels := fun k => if k = id then p.upgrade_levels k + 1
                                     else p.upgrade_levels k }, true) := by
  unfold Player.purchase_upgrade
  rw [h]
  rfl

/-- On failure, `purchase_upgrade` is the identity. -/
lemma purchase_fail_eq {p : Player} {id : String}
    (h : p.can_afford_upgrade id = false) :
    p.purchase_upgrade id = (p, false) := by
  unfold Player.purchase_upgrade
  rw [h]
  rfl

/-- The points after a click are the old points plus the (nonnegative)
awarded amount. -/
lemma click_points (p : Player) (roll : ℚ) :
    (p.click roll).1.points = p.points + ((p.click roll).2 : ℚ) := rfl

/-- The lifetime total after a click grows by the same awarded amount. -/
lemma click_total (p : Player) (roll : ℚ) :
    (p.click roll).1.total_points_earned
      = p.total_points_earned + ((p.click roll).2 : ℚ) := rfl

/-- One well-formed ledger operation preserves the invariant and never
decreases the lifetime total. -/
lemma applyOp_step (p : Player) (op : LedgerOp) (hwf : op.wf)
    (h : LedgerInv p) :
    LedgerInv (applyOp p op) ∧
    p.total_points_earned ≤ (applyOp p op).total_points_earned := by
  obtain ⟨h0, h1⟩ := h
  cases op with
  | click roll =>
      have hb : (0 : ℚ) ≤ ((p.click roll).2 : ℚ) := by positivity
      show LedgerInv (p.click roll).1 ∧
        p.total_points_earned ≤ (p.click roll).1.total_points_earned
      unfold LedgerInv
      rw [click_points, click_total]
      exact ⟨⟨by linarith, by linarith⟩, by linarith⟩
  | addPoints amount =>
      have ha : (0 : ℚ) ≤ amount := hwf
      show LedgerInv (p.add_points amount) ∧
        p.total_points_earned ≤ (p.add_points amount).total_points_earned
      unfold LedgerInv Player.add_points
      dsimp only
      exact ⟨⟨by linarith, by linarith⟩, by linarith⟩
  | purchase id =>
      show LedgerInv (p.purchase_upgrade id).1 ∧
        p.total_points_earned ≤ (p.purchase_upgrade id).1.total_points_earned
      cases hc : p.can_afford_upgrade id with
      | false => rw [purchase_fail_eq hc]; exact ⟨⟨h0, h1⟩, le_refl _⟩
      | true =>
          have hle := can_afford_le hc
          have hcost : (0 : ℚ) ≤ ((p.get_upgrade_cost id : ℤ) : ℚ) := by
            have := costAt_nonneg id (p.upgrade_levels id)
            unfold Player.get_upgrade_cost
            exact_mod_cast this
          rw [purchase_success_eq hc]
          unfold LedgerInv
          dsimp only
          exact ⟨⟨by linarith, by linarith⟩, le_refl _⟩
  | offlineGrant parsed =>
      show LedgerInv (applyOfflineGrant p parsed) ∧
        p.total_points_earned
          ≤ (applyOfflineGrant p parsed).total_points_earned
      unfold applyOfflineGrant
      dsimp only
      by_cases he : calculate_offline_earnings p parsed > 0
      · rw [if_pos he]
        unfold LedgerInv Player.add_points
        dsimp only
        exact ⟨⟨by linarith, by linarith⟩, by linarith⟩
      · rw [if_neg he]
        exact ⟨⟨h0, h1⟩, le_refl _⟩

/-- Sequence form of `applyOp_step`. -/
lemma applyOps_inv (ops : List LedgerOp) :
    ∀ p : Player, (∀ op ∈ ops, op.wf) → LedgerInv p →
      LedgerInv (applyOps p ops) ∧
      p.total_points_earned ≤ (applyOps p ops).total_points_earned := by
  induction ops with
  | nil => intro p _ h; exact ⟨h, le_refl _⟩
  | cons op rest ih =>
      intro p hwf h
      have hop := applyOp_step p op (hwf op (by simp)) h
      have hrest := ih (applyOp p op)
        (fun o ho => hwf o (by simp [ho])) hop.1
      exact ⟨hrest.1, le_trans hop.2 hrest.2⟩

/-- C4.  The ledger invariant `0 ≤ points ∧ points ≤ total_points_earned`
holds in the all-zero initial state, is preserved by every sequence of
well-formed ledger operations (clicks, nonnegative `add_points` grants,
purchases, offline grants), the lifetime total never decreases across such
a sequence, and a single non-purchase operation never decreases
`points`. -/
theorem ledger_invariant (p : Player) (ops : List LedgerOp)
    (hwf : ∀ op ∈ ops, op.wf) (hinv : LedgerInv p) :
    LedgerInv Player.init ∧
    LedgerInv (applyOps p ops) ∧
    p.total_points_earned ≤ (applyOps p ops).total_points_earned ∧
    (∀ op : LedgerOp, op.wf → (∀ id, op ≠ .purchase id) →
      p.points ≤ (applyOp p op).points) := by
  have hseq := applyOps_inv ops p hwf hinv
  refine ⟨⟨le_refl 0, le_refl 0⟩, hseq.1, hseq.2, ?_⟩
  intro op hwfop hnp
  cases op with
  | click roll =>
      have hb : (0 : ℚ) ≤ ((p.click roll).2 : ℚ) := by positivity
      show p.points ≤ (p.click roll).1.points
      rw [click_points]
      linarith
  | addPoints amount =>
      have ha : (0 : ℚ) ≤ amount := hwfop
      show p.points ≤ (p.add_points amount).points
      unfold Player.add_points
      dsimp only
      linarith
  | purchase id => exact absurd rfl (hnp id)
  | offlineGrant parsed =>
      show p.points ≤ (applyOfflineGrant p parsed).points
      unfold applyOfflineGrant
      dsimp only
      by_cases he : calculate_offline_earnings p parsed > 0
      · rw [if_pos he]
        unfold Player.add_points
        dsimp only
        linarith
      · rw [if_neg he]

/-- Witness for C4: a short concrete history — an `add_points 5` grant, a
click, then a `click_power` purchase — keeps the invariant. -/
theorem ledger_invariant_witness :
    (∀ op ∈ ([.addPoints 5, .click (1/2), .purchase "click_power"] :
        List LedgerOp), LedgerOp.wf op) ∧
    LedgerInv Player.init ∧
    LedgerInv (applyOps Player.init
      [.addPoints 5, .click (1/2), .purchase "click_power"]) := by
  have hwf : ∀ op ∈ ([.addPoints 5, .click (1/2),
      .purchase "click_power"] : List LedgerOp), LedgerOp.wf op := by
    intro op hop
    simp only [List.mem_cons, List.not_mem_nil, or_false] at hop
    rcases hop with rfl | rfl | rfl
    · show (0 : ℚ) ≤ 5; norm_num
    · trivial
    · trivial
  have hinv : LedgerInv Player.init := ⟨le_refl 0, le_refl 0⟩
  exact ⟨hwf, hinv,
    (ledger_invariant Player.init _ hwf hinv).2.1⟩

/-! ## C8: events resolve only on duration expiry -/

/-- C8.  While an event is active, `update` returns to Idle only when the
accumulated elapsed time reaches the event duration: short of it the event
stays Active (regardless of how many targets are already collected) with
no result and an unchanged completion counter; at or past it the manager
resolves — the event is cleared, the result's success is true exactly when
the event is `gold_rush` or all required targets were collected, the
lifetime counter increments exactly on success, the injected fresh
interval is installed and the idle timer restarts.  The hypothesis
`hsucc` is the `RandomEvent` invariant (established by `_start_event`,
preserved by `handle_click`) that the `success` flag is only ever set once
`collected ≥ required`. -/
theorem event_resolution (m : EventManager) (ev : RandomEvent)
    (dt fresh : ℚ) (tmpl : EventTemplate)
    (hm : m.current_event = some ev)
    (hsucc : ev.success = true → ev.required ≤ ev.collected) :
    (ev.elapsed + dt < ev.duration →
      (m.update dt fresh tmpl).1.current_event
          = some { ev with elapsed := ev.elapsed + dt } ∧
      (m.update dt fresh tmpl).2 = none ∧
      (m.update dt fresh tmpl).1.total_completed = m.total_completed) ∧
    (ev.duration ≤ ev.elapsed + dt →
      (m.update dt fresh tmpl).1.current_event = none ∧
      (m.update dt fresh tmpl).2 = some
        { event_type := ev.event_type,
          success := decide (ev.event_type = "gold_rush"
            ∨ ev.required ≤ ev.collected) } ∧
      (m.update dt fresh tmpl).1.total_completed
        = (if ev.event_type = "gold_rush" ∨ ev.required ≤ ev.collected
           then m.total_completed + 1 else m.total_completed) ∧
      (m.update dt fresh tmpl).1.next_interval = fresh ∧
      (m.update dt fresh tmpl).1.timer = 0) := by
  have hs : (if ev.event_type = "gold_rush" then true
      else if ev.collected ≥ ev.required then true else ev.success)
      = decide (ev.event_type = "gold_rush" ∨ ev.required ≤ ev.collected) := by
    by_cases hg : ev.event_type = "gold_rush"
    · simp [hg]
    · by_cases hc : ev.required ≤ ev.collected
      · simp [hg, hc]
      · have hfalse : ev.success = false := by
          cases hsv : ev.success
          · rfl
          · exact absurd (hsucc hsv) hc
        simp [hg, hc, hfalse]
  constructor
  · intro h
    unfold EventManager.update
    rw [hm]
    dsimp only
    rw [if_neg (not_le.mpr h), if_neg (fun hc => absurd hc.2 (not_le.mpr h))]
    exact ⟨rfl, rfl, rfl⟩
  · intro h
    unfold EventManager.update
    rw [hm]
    dsimp only
    rw [if_pos h]
    unfold EventManager.finish_event
    dsimp only
    rw [hs]
    refine ⟨rfl, rfl, ?_, rfl, rfl⟩
    by_cases hp : ev.event_type = "gold_rush" ∨ ev.required ≤ ev.collected
    · rw [if_pos hp, if_pos (decide_eq_true hp)]
    · rw [if_neg hp, if_neg (by simp [hp])]

/-- An Active `flower_field` event at 19 of its 20 seconds with all 5
required targets collected, inside a manager that has completed 2 events
so far. -/
def sampleEvent : RandomEvent :=
  { event_type := "flower_field", duration := 20, elapsed := 19,
    success := true, collected := 5, required := 5 }

/-- The manager holding `sampleEvent`. -/
def sampleManager : EventManager :=
  { current_event := some sampleEvent, timer := 0, next_interval := 900,
    total_completed := 2, showing_alert := false, alert_timer := 0 }

/-- Witness for C8: a fully-collected `flower_field` event survives a
0.5-second tick (19.5 < 20 keeps it Active), and a 2-second tick resolves
it successfully, bumping the counter to 3 and installing the fresh
interval 777. -/
theorem event_resolution_witness :
    (sampleManager.current_event = some sampleEvent ∧
      (sampleEvent.success = true → sampleEvent.required ≤ sampleEvent.collected)) ∧
    ((sampleManager.update (1/2) 777 ⟨"gold_rush", 10, 0⟩).2 = none ∧
      (sampleManager.update (1/2) 777 ⟨"gold_rush", 10, 0⟩).1.current_event
        = some { sampleEvent with elapsed := sampleEvent.elapsed + 1/2 }) ∧
    ((sampleManager.update 2 777 ⟨"gold_rush", 10, 0⟩).1.current_event = none ∧
      (sampleManager.update 2 777 ⟨"gold_rush", 10, 0⟩).2 = some
        { event_type := sampleEvent.event_type,
          success := decide (sampleEvent.event_type = "gold_rush"
            ∨ sampleEvent.required ≤ sampleEvent.collected) } ∧
      (sampleManager.update 2 777 ⟨"gold_rush", 10, 0⟩).1.total_completed
        = (if sampleEvent.event_type = "gold_rush"
              ∨ sampleEvent.required ≤ sampleEvent.collected
           then sampleManager.total_completed + 1
           else sampleManager.total_completed) ∧
      (sampleManager.update 2 777 ⟨"gold_rush", 10, 0⟩).1.next_interval
        = 777) := by
  have hm : sampleManager.current_event = some sampleEvent := rfl
  have hsucc : sampleEvent.success = true
      → sampleEvent.required ≤ sampleEvent.collected := fun _ => le_refl 5
  have hstay := (event_resolution sampleManager sampleEvent (1/2) 777
    ⟨"gold_rush", 10, 0⟩ hm hsucc).1
    (by norm_num [sampleEvent] :
      sampleEvent.elapsed + 1/2 < sampleEvent.duration)
  have hres := (event_resolution sampleManager sampleEvent 2 777
    ⟨"gold_rush", 10, 0⟩ hm hsucc).2
    (by norm_num [sampleEvent] :
      sampleEvent.duration ≤ sampleEvent.elapsed + 2)
  exact ⟨⟨hm, hsucc⟩, ⟨hstay.2.1, hstay.1⟩,
    ⟨hres.1, hres.2.1, hres.2.2.1, hres.2.2.2.1⟩⟩

/-! ## C9: achievements unlock at most once -/

/-- Lemma: `checkLoop` only appends: it adds one duplicate-free batch of
previously-locked ids to both the unlocked list and the `newly`
accumulator, and touches nothing else. -/
lemma checkLoop_spec (p : Player) (cm : CharacterManager) :
    ∀ (l : List AchievementDef) (am : AchievementManager)
      (newly : List String),
      ∃ fresh : List String,
        checkLoop p cm l (am, newly)
          = ({ am with unlocked := am.unlocked ++ fresh }, newly ++ fresh) ∧
        fresh.Nodup ∧ (∀ a ∈ fresh, a ∉ am.unlocked) := by
  intro l
  induction l with
  | nil =>
      intro am newly
      refine ⟨[], ?_, List.nodup_nil, by simp⟩
      simp [checkLoop]
  | cons a rest ih =>
      intro am newly
      by_cases hmem : a.id ∈ am.unlocked
      · obtain ⟨fresh, heq, hnd, hnew⟩ := ih am newly
        refine ⟨fresh, ?_, hnd, hnew⟩
        rw [checkLoop, if_pos hmem]
        exact heq
      · by_cases heval : am.evaluate a.condition p cm
        · obtain ⟨fresh, heq, hnd, hnew⟩ :=
            ih { am with unlocked := am.unlocked ++ [a.id] }
              (newly ++ [a.id])
          refine ⟨a.id :: fresh, ?_, ?_, ?_⟩
          · rw [checkLoop, if_neg hmem, if_pos heval, heq]
            simp [List.append_assoc]
          · refine List.nodup_cons.mpr ⟨?_, hnd⟩
            intro hin
            exact (hnew a.id hin) (by simp)
          · intro x hx
            rcases List.mem_cons.mp hx with rfl | hx'
            · exact hmem
            · intro hxam
              exact (hnew x hx') (List.mem_append_left _ hxam)
        · obtain ⟨fresh, heq, hnd, hnew⟩ := ih am newly
          refine ⟨fresh, ?_, hnd, hnew⟩
          rw [checkLoop, if_neg hmem, if_neg heval]
          exact heq

/-- One `check_all` call appends its (duplicate-free, previously-locked)
returned batch to the unlocked list. -/
lemma check_all_spec (am : AchievementManager) (p : Player)
    (cm : CharacterManager) :
    ∃ fresh : List String,
      am.check_all p cm
          = ({ am with unlocked := am.unlocked ++ fresh }, fresh) ∧
      fresh.Nodup ∧ (∀ a ∈ fresh, a ∉ am.unlocked) := by
  obtain ⟨fresh, heq, hnd, hnew⟩ := checkLoop_spec p cm ACHIEVEMENTS am []
  exact ⟨fresh, by simpa [AchievementManager.check_all] using heq, hnd, hnew⟩

/-- Across a sequence of `check_all` calls, the final unlocked list is the
initial one extended with every batch in order, the concatenated batches
are duplicate-free, and none of them revisits an initially-unlocked id. -/
lemma runChecks_spec (obs : List (Player × CharacterManager)) :
    ∀ am : AchievementManager,
      (runChecks am obs).1.unlocked
          = am.unlocked ++ (runChecks am obs).2.flatten ∧
      ((runChecks am obs).2.flatten).Nodup ∧
      (∀ a ∈ (runChecks am obs).2.flatten, a ∉ am.unlocked) := by
  induction obs with
  | nil => intro am; simp [runChecks]
  | cons o rest ih =>
      obtain ⟨p, cm⟩ := o
      intro am
      obtain ⟨fresh, heq, hnd, hnew⟩ := check_all_spec am p cm
      have hrun : runChecks am ((p, cm) :: rest)
          = ((runChecks { am with unlocked := am.unlocked ++ fresh }
                rest).1,
             fresh :: (runChecks { am with unlocked := am.unlocked ++ fresh }
                rest).2) := by
        rw [runChecks, heq]
      obtain ⟨ihu, ihnd, ihnew⟩ :=
        ih { am with unlocked := am.unlocked ++ fresh }
      rw [hrun]
      refine ⟨?_, ?_, ?_⟩
      · rw [List.flatten_cons, ihu]
        simp [List.append_assoc]
      · rw [List.flatten_cons]
        refine hnd.append ihnd ?_
        intro x hx hx'
        exact (ihnew x hx') (List.mem_append_right _ hx)
      · intro x hx
        rw [List.flatten_cons] at hx
        rcases List.mem_append.mp hx with hx' | hx'
        · exact hnew x hx'
        · intro hxam
          exact (ihnew x hx') (List.mem_append_left _ hxam)

/-- C9.  Once an achievement id is unlocked it stays unlocked through any
later `check_all` (single step and across any sequence), every freshly
returned id was not unlocked before the call and is unlocked after it, and
across any sequence of `check_all` evaluations the returned batches are
pairwise disjoint and duplicate-free — no id is ever reported twice. -/
theorem achievements_unlock_once (am : AchievementManager) (p : Player)
    (cm : CharacterManager) (obs : List (Player × CharacterManager)) :
    (∀ a ∈ am.unlocked, a ∈ (am.check_all p cm).1.unlocked) ∧
    (∀ a ∈ (am.check_all p cm).2,
      a ∉ am.unlocked ∧ a ∈ (am.check_all p cm).1.unlocked) ∧
    (∀ a ∈ am.unlocked, a ∈ (runChecks am obs).1.unlocked) ∧
    ((runChecks am obs).2.flatten).Nodup ∧
    (∀ batch ∈ (runChecks am obs).2, ∀ a ∈ batch, a ∉ am.unlocked) := by
  obtain ⟨fresh, heq, hnd, hnew⟩ := check_all_spec am p cm
  obtain ⟨hru, hrnd, hrnew⟩ := runChecks_spec obs am
  refine ⟨?_, ?_, ?_, hrnd, ?_⟩
  · intro a ha
    rw [heq]
    exact List.mem_append_left _ ha
  · intro a ha
    rw [heq] at ha ⊢
    exact ⟨hnew a ha, List.mem_append_right _ ha⟩
  · intro a ha
    rw [hru]
    exact List.mem_append_left _ ha
  · intro batch hb a ha
    exact hrnew a (List.mem_flatten.mpr ⟨batch, hb, ha⟩)

/-- A manager that has already unlocked `click_10`. -/
def achMgr1 : AchievementManager :=
  { unlocked := ["click_10"], first_lucky := false, first_offline := false,
    first_event := false }

/-- Witness for C9: `click_10`, already unlocked, survives a `check_all`
call on a fresh player and is never part of a later batch. -/
theorem achievements_unlock_once_witness :
    ("click_10" ∈ achMgr1.unlocked ∧
      "click_10" ∈ (achMgr1.check_all Player.init
        CharacterManager.init).1.unlocked) ∧
    (∀ batch ∈ (runChecks achMgr1
        [(Player.init, CharacterManager.init)]).2,
      ∀ a ∈ batch, a ∉ achMgr1.unlocked) := by
  have hmem : "click_10" ∈ achMgr1.unlocked := by simp [achMgr1]
  have happ := achievements_unlock_once achMgr1 Player.init
    CharacterManager.init [(Player.init, CharacterManager.init)]
  exact ⟨⟨hmem, happ.1 "click_10" hmem⟩, happ.2.2.2.2⟩

end HealingClicker
